import Mathlib

/-! Verification of the minerva geonames bulk importer.

A shallow embedding of `server/geonames/import_data.py` (a Python 2 module).
Python dictionaries of parsed gazetteer rows are modelled as association
lists from field names to `PyVal`; fallible Python code (KeyError on
`dict.pop` of a missing key, ZeroDivisionError, TypeError, IOError) is
modelled with `Except`.  The module-level `_tick` global of the progress
reporter and the file system touched by the downloader are passed as
explicit state.
-/

set_option autoImplicit false

namespace Minerva

/-- A Python value as it appears in a parsed geonames record: `None`,
an integer (covers the numpy integer scalars produced by the converters),
a finite float (modelled as a rational), the float NaN, a string, or a
tuple of strings (produced by the comma-splitting converter). -/
inductive PyVal where
  | none
  | int (n : Int)
  | float (q : ℚ)
  | nan
  | str (s : String)
  | tup (l : List String)
  deriving DecidableEq, Repr

/-- Python errors raised by the embedded code. -/
inductive PyErr where
  | keyError (k : String)
  | typeError
  | zeroDiv
  | ioError
  | urlError
  deriving DecidableEq, Repr

/-- A record (one row of the gazetteer) as a Python dict: an association
list from field name to value, first occurrence of a key wins. -/
abbrev Rec : Type := List (String × PyVal)

/-- `d[k]` as an optional lookup: the value at the first occurrence of `k`. -/
def lookupKey : Rec → String → Option PyVal
  | [], _ => Option.none
  | kv :: rest, k => if kv.1 = k then some kv.2 else lookupKey rest k

/-- `k in d` for a Python dict. -/
def containsKey : Rec → String → Bool
  | [], _ => false
  | kv :: rest, k => if kv.1 = k then true else containsKey rest k

/-- Removal of every binding of key `k` (a Python dict holds at most one). -/
def removeKey : Rec → String → Rec
  | [], _ => []
  | kv :: rest, k => if kv.1 = k then removeKey rest k else kv :: removeKey rest k

/-- `d.get(k)`: the stored value, defaulting to `None` when `k` is absent. -/
def pyGet (d : Rec) (k : String) : PyVal :=
  (lookupKey d k).getD PyVal.none

/-- `d.pop(k)` with no default: removes the key, raising `KeyError` when
the key is absent. -/
def pyPop (d : Rec) (k : String) : Except PyErr Rec :=
  if containsKey d k then Except.ok (removeKey d k) else Except.error (PyErr.keyError k)

/-- The inner `is_nan` helper of `export_chunk`: true exactly for a float
that is neither `≤ 0` nor `≥ 0`, i.e. NaN; anything that is not a float
(including ints, strings, tuples, `None`) is not NaN. -/
def is_nan : PyVal → Bool
  | PyVal.nan => true
  | _ => false

/-- The Python 2 comparison `val <= 0` as used in the sanitization loop.
Numbers compare numerically; NaN compares false; in Python 2 a string or a
tuple compares greater than any number, and `None` compares less. -/
def pyLeZero : PyVal → Bool
  | PyVal.none => true
  | PyVal.int n => decide (n ≤ 0)
  | PyVal.float q => decide (q ≤ 0)
  | PyVal.nan => false
  | PyVal.str _ => false
  | PyVal.tup _ => false

/-- The fixed 19-column schema `_columns` of the geonames TSV file. -/
def _columns : List String :=
  [("geonameid" : String),
   "name",
   "asciiname",
   "alternatenames",
   "latitude",
   "longitude",
   "feature class",
   "feature code",
   "country code",
   "cc2",
   "admin1 code",
   "admin2 code",
   "admin3 code",
   "admin4 code",
   "population",
   "elevation",
   "dem",
   "timezone",
   "modification date"]

/-- Python's `str.strip()` with no argument: drop whitespace from both
ends of the string. -/
def pyStrip (v : String) : String :=
  String.mk (((v.data.dropWhile Char.isWhitespace).reverse.dropWhile
    Char.isWhitespace).reverse)

/-- Python's `str.split(',')` on a character list: cut at every comma,
keeping empty segments. -/
def splitCommaAux : List Char → List Char → List (List Char)
  | [], acc => [acc.reverse]
  | c :: rest, acc =>
    if c = ',' then acc.reverse :: splitCommaAux rest []
    else splitCommaAux rest (c :: acc)

/-- `_make_tuple`: strip the string, split a non-empty result on commas,
and return the empty tuple for an empty (stripped) string. -/
def _make_tuple (v : String) : List String :=
  if pyStrip v = "" then []
  else (splitCommaAux (pyStrip v).data []).map (fun l => String.mk l)

/-- One iteration of the field-sanitization loop of `export_chunk` for
column `k`: `val = d.get(k)`; if `val` is NaN or `None` then `d.pop(k)`
(KeyError when the key is absent); else if `k` is `population` or `dem`
and `val <= 0` then `d.pop(k)`; else leave `d` unchanged. -/
def sanitizeStep (d : Rec) (k : String) : Except PyErr Rec :=
  if is_nan (pyGet d k) || pyGet d k == PyVal.none then
    pyPop d k
  else if (k == ("population" : String) || k == ("dem" : String)) && pyLeZero (pyGet d k) then
    pyPop d k
  else
    Except.ok d

/-- The whole per-record sanitization loop of `export_chunk`: the step
above folded over the 19 declared columns in order, propagating the first
raised `KeyError`. -/
def sanitize (d : Rec) : Except PyErr Rec :=
  List.foldlM sanitizeStep d _columns

/-- A geojson point feature as built by `export_chunk`: geometry
coordinates `[longitude, latitude]` (popped from the record) and the
remaining sanitized record as properties. -/
structure Feature where
  lon : PyVal
  lat : PyVal
  properties : Rec
  deriving DecidableEq

/-- The coordinate extraction of `export_chunk` applied to a sanitized
record: `None` (rejection) when `longitude` or `latitude` is missing,
otherwise the feature with both coordinates popped out of the properties. -/
def mkFeature (d : Rec) : Option Feature :=
  if containsKey d ("longitude") && containsKey d ("latitude") then
    some ⟨pyGet d ("longitude"), pyGet d ("latitude"),
          removeKey (removeKey d ("longitude")) ("latitude")⟩
  else
    Option.none

/-- `export_chunk records`: sanitize each record in order; a record whose
sanitized form lacks `longitude` or `latitude` is printed (first list,
the log of `Invalid geometry` messages) and skipped; otherwise its feature
is appended.  A `KeyError` raised by the sanitization loop aborts the
chunk (the prints that already happened are kept, the features are lost
because the handler is never called). -/
def export_chunk : List Rec → List Rec × Except PyErr (List Feature)
  | [] => ([], Except.ok [])
  | d :: rest =>
    match sanitize d with
    | Except.error e => ([], Except.error e)
    | Except.ok d' =>
      match mkFeature d' with
      | Option.none =>
        ((export_chunk rest).1.cons d', (export_chunk rest).2)
      | some f =>
        ((export_chunk rest).1, ((export_chunk rest).2).map (fun fs => f :: fs))

instance {ε α : Type} [DecidableEq ε] [DecidableEq α] : DecidableEq (Except ε α) :=
  fun x y =>
    match x, y with
    | Except.ok a, Except.ok b =>
      if h : a = b then Decidable.isTrue (by rw [h])
      else Decidable.isFalse (fun hc => h (Except.ok.inj hc))
    | Except.ok _, Except.error _ => Decidable.isFalse (fun hc => Except.noConfusion hc)
    | Except.error _, Except.ok _ => Decidable.isFalse (fun hc => Except.noConfusion hc)
    | Except.error e, Except.error f =>
      if h : e = f then Decidable.isTrue (by rw [h])
      else Decidable.isFalse (fun hc => h (Except.error.inj hc))

/-! ## Characterization of the sanitization loop

`sanitize` is an effectful fold; the lemmas below show that on a record
that carries every declared column it acts as a pure filter, and that it
raises `KeyError` exactly when a declared column is missing. -/

/-- The pure keep/drop decision the sanitization loop makes for a declared
column `k` holding value `v`. -/
def keepVal (k : String) (v : PyVal) : Bool :=
  !(is_nan v || v == PyVal.none) &&
  !((k == ("population" : String) || k == ("dem" : String)) && pyLeZero v)

/-- Keep/drop decision for one stored entry of `d`, relative to a set of
declared columns: entries of undeclared keys are untouched. -/
def keepEntryC (cols : List String) (d : Rec) (kv : String × PyVal) : Bool :=
  !(cols.contains kv.1) || keepVal kv.1 (pyGet d kv.1)

/-- The sanitization loop as a pure filter over the record's entries. -/
def pureFilter (d : Rec) : Rec :=
  d.filter (keepEntryC _columns d)

/-- Does the record carry every one of the 19 declared columns?  (True for
every record produced by the chunked reader.) -/
def hasAllCols (d : Rec) : Bool :=
  _columns.all (fun k => containsKey d k)

theorem containsKey_eq_isSome (d : Rec) (k : String) :
    containsKey d k = (lookupKey d k).isSome := by
  induction d with
  | nil => rfl
  | cons kv rest ih =>
    by_cases h : kv.1 = k <;> simp [containsKey, lookupKey, h, ih]

theorem lookupKey_removeKey_ne (d : Rec) (k k' : String) (h : k' ≠ k) :
    lookupKey (removeKey d k) k' = lookupKey d k' := by
  induction d with
  | nil => rfl
  | cons kv rest ih =>
    have hkk' : ¬(k = k') := fun hc => h hc.symm
    by_cases hk : kv.1 = k
    · simp [removeKey, lookupKey, hk, hkk', ih]
    · by_cases hk' : kv.1 = k' <;> simp [removeKey, lookupKey, hk, hk', Ne.symm hkk', ih]

theorem containsKey_removeKey_ne (d : Rec) (k k' : String) (h : k' ≠ k) :
    containsKey (removeKey d k) k' = containsKey d k' := by
  rw [containsKey_eq_isSome, containsKey_eq_isSome, lookupKey_removeKey_ne d k k' h]

theorem pyGet_removeKey_ne (d : Rec) (k k' : String) (h : k' ≠ k) :
    pyGet (removeKey d k) k' = pyGet d k' := by
  unfold pyGet
  rw [lookupKey_removeKey_ne d k k' h]

theorem containsKey_of_removeKey (d : Rec) (k k' : String)
    (h : containsKey (removeKey d k) k' = true) : containsKey d k' = true := by
  induction d with
  | nil => exact absurd h (by simp [removeKey, containsKey])
  | cons kv rest ih =>
    by_cases hk : kv.1 = k
    · simp only [removeKey, if_pos hk] at h
      by_cases hk' : kv.1 = k' <;> simp [containsKey, hk', ih h]
    · simp only [removeKey, if_neg hk] at h
      by_cases hk' : kv.1 = k'
      · simp [containsKey, hk']
      · simp only [containsKey, if_neg hk'] at h ⊢
        exact ih h

theorem removeKey_eq_filter (d : Rec) (k : String) :
    removeKey d k = d.filter (fun kv => !(kv.1 == k)) := by
  induction d with
  | nil => rfl
  | cons kv rest ih =>
    by_cases hk : kv.1 = k <;> simp [removeKey, List.filter_cons, hk, ih]

theorem mem_removeKey_ne (d : Rec) (k : String) (kv : String × PyVal)
    (h : kv ∈ removeKey d k) : kv.1 ≠ k := by
  rw [removeKey_eq_filter] at h
  have := List.of_mem_filter h
  simpa using this

/-- On a record that actually carries column `k`, one sanitization step
never raises and acts as the pure decision `keepVal`. -/
theorem sanitizeStep_of_contains (d : Rec) (k : String)
    (h : containsKey d k = true) :
    sanitizeStep d k =
      Except.ok (if keepVal k (pyGet d k) then d else removeKey d k) := by
  unfold sanitizeStep pyPop keepVal
  by_cases h1 : (is_nan (pyGet d k) || pyGet d k == PyVal.none) = true
  · simp [h1, h]
  · rw [Bool.not_eq_true] at h1
    by_cases h2 : ((k == ("population" : String) || k == ("dem" : String)) &&
        pyLeZero (pyGet d k)) = true
    · simp [h1, h2, h]
    · rw [Bool.not_eq_true] at h2
      simp [h1, h2]

/-- A successful sanitization step visited a present column and either kept
the record unchanged or removed exactly that column. -/
theorem sanitizeStep_ok (d : Rec) (k : String) (d1 : Rec)
    (h : sanitizeStep d k = Except.ok d1) :
    containsKey d k = true ∧ (d1 = d ∨ d1 = removeKey d k) := by
  have hc : containsKey d k = true := by
    by_contra hc
    rw [Bool.not_eq_true] at hc
    have hnone : pyGet d k = PyVal.none := by
      unfold pyGet
      rw [containsKey_eq_isSome] at hc
      cases hl : lookupKey d k with
      | none => rfl
      | some v => rw [hl] at hc; simp at hc
    unfold sanitizeStep pyPop at h
    rw [hnone] at h
    simp [hc] at h
  refine ⟨hc, ?_⟩
  rw [sanitizeStep_of_contains d k hc] at h
  by_cases hkeep : keepVal k (pyGet d k) = true
  · left
    rw [if_pos hkeep] at h
    exact (Except.ok.inj h).symm
  · right
    rw [Bool.not_eq_true] at hkeep
    rw [if_neg (by simp [hkeep])] at h
    exact (Except.ok.inj h).symm

/-- Generalized loop invariant: folding the sanitization step over a
duplicate-free list of columns that are all present acts as a pure filter
of the record's entries. -/
theorem sanitize_go (cols : List String) (d : Rec) (hnd : cols.Nodup)
    (hcont : ∀ k ∈ cols, containsKey d k = true) :
    List.foldlM sanitizeStep d cols = Except.ok (d.filter (keepEntryC cols d)) := by
  induction cols generalizing d with
  | nil =>
    have hid : List.filter (keepEntryC [] d) d = d := by
      apply List.filter_eq_self.mpr
      intro kv _
      simp [keepEntryC]
    simp [List.foldlM, hid, pure, Except.pure]
  | cons k ks ih =>
    have hknotin : k ∉ ks := (List.nodup_cons.mp hnd).1
    have hndks : ks.Nodup := (List.nodup_cons.mp hnd).2
    have hck : containsKey d k = true := hcont k (List.mem_cons_self k ks)
    rw [List.foldlM_cons, sanitizeStep_of_contains d k hck]
    by_cases hkeep : keepVal k (pyGet d k) = true
    · rw [if_pos hkeep]
      have hcont' : ∀ k' ∈ ks, containsKey d k' = true :=
        fun k' hk' => hcont k' (List.mem_cons_of_mem k hk')
      have := ih d hndks hcont'
      simp only [bind, Except.bind, this]
      congr 1
      apply List.filter_congr
      intro kv _
      by_cases hkv : kv.1 = k
      · simp [keepEntryC, hkv, hkeep]
      · simp [keepEntryC, List.contains_cons, hkv, Ne.symm hkv]
    · rw [Bool.not_eq_true] at hkeep
      rw [if_neg (by simp [hkeep])]
      have hcont' : ∀ k' ∈ ks, containsKey (removeKey d k) k' = true := by
        intro k' hk'
        have hne : k' ≠ k := fun hc => hknotin (hc ▸ hk')
        rw [containsKey_removeKey_ne d k k' hne]
        exact hcont k' (List.mem_cons_of_mem k hk')
      have := ih (removeKey d k) hndks hcont'
      simp only [bind, Except.bind, this]
      congr 1
      have hstep1 : (removeKey d k).filter (keepEntryC ks (removeKey d k)) =
          (removeKey d k).filter (keepEntryC ks d) := by
        apply List.filter_congr
        intro kv hkv
        have hne : kv.1 ≠ k := mem_removeKey_ne d k kv hkv
        simp [keepEntryC, pyGet_removeKey_ne d k kv.1 hne]
      rw [hstep1, removeKey_eq_filter, List.filter_filter]
      apply List.filter_congr
      intro kv _
      by_cases hkv : kv.1 = k
      · simp [keepEntryC, hkv, hkeep]
      · simp [keepEntryC, List.contains_cons, hkv, Ne.symm hkv]

/-- On a record carrying all declared columns the sanitization loop never
raises: it returns the record filtered by the pure per-column decision. -/
theorem sanitize_ok_of_hasAllCols (d : Rec) (h : hasAllCols d = true) :
    sanitize d = Except.ok (pureFilter d) := by
  unfold sanitize pureFilter
  apply sanitize_go
  · decide
  · intro k hk
    exact (List.all_eq_true.mp h) k hk

/-- A successful run of the sanitization loop implies that every declared
column was present in the input record. -/
theorem sanitize_ok_hasAllCols (d : Rec) (d' : Rec)
    (h : sanitize d = Except.ok d') : hasAllCols d = true := by
  unfold sanitize at h
  unfold hasAllCols
  rw [List.all_eq_true]
  have main : ∀ (cols : List String) (d0 d1 : Rec),
      List.foldlM sanitizeStep d0 cols = Except.ok d1 →
      ∀ k ∈ cols, containsKey d0 k = true := by
    intro cols
    induction cols with
    | nil => intro d0 d1 _ k hk; exact absurd hk (List.not_mem_nil k)
    | cons c cs ih =>
      intro d0 d1 hrun k hk
      rw [List.foldlM_cons] at hrun
      cases hstep : sanitizeStep d0 c with
      | error e =>
        rw [hstep] at hrun
        exact absurd hrun (by simp [bind, Except.bind])
      | ok dmid =>
        rw [hstep] at hrun
        simp only [bind, Except.bind] at hrun
        have hstep' := sanitizeStep_ok d0 c dmid hstep
        rcases List.mem_cons.mp hk with hkc | hkcs
        · rw [hkc]; exact hstep'.1
        · have hmid : containsKey dmid k = true := ih dmid d1 hrun k hkcs
          rcases hstep'.2 with hd | hd
          · rw [hd] at hmid; exact hmid
          · rw [hd] at hmid; exact containsKey_of_removeKey d0 c k hmid
  exact main _columns d d' h

/-- Looking a key up in a filtered record, when the filter decides all
entries of that key the same way. -/
theorem lookupKey_filter_key (l : Rec) (q : String × PyVal → Bool) (k : String)
    (c : Bool) (H : ∀ kv : String × PyVal, kv.1 = k → q kv = c) :
    lookupKey (l.filter q) k = if c then lookupKey l k else Option.none := by
  cases c with
  | true =>
    induction l with
    | nil => simp [lookupKey]
    | cons kv rest ih =>
      rw [List.filter_cons]
      by_cases hkv : kv.1 = k
      · rw [H kv hkv]
        simp [lookupKey, hkv]
      · cases hq : q kv <;> simp [lookupKey, hkv, ih]
  | false =>
    induction l with
    | nil => simp [lookupKey]
    | cons kv rest ih =>
      rw [List.filter_cons]
      by_cases hkv : kv.1 = k
      · rw [H kv hkv]
        simpa [lookupKey, hkv] using ih
      · cases hq : q kv <;> simp [lookupKey, hkv, ih]

/-- Looking a declared column up in the pure filter of a record. -/
theorem lookupKey_pureFilter (d : Rec) (k : String)
    (hk : k ∈ _columns) :
    lookupKey (pureFilter d) k =
      if keepVal k (pyGet d k) then lookupKey d k else Option.none := by
  unfold pureFilter
  apply lookupKey_filter_key
  intro kv hkv
  simp [keepEntryC, hkv, hk]

/-! ## Concrete records used as test inputs and counterexamples -/

/-- The record of the spec's C2 scenario: only four of the nineteen
declared columns are present. -/
def c2rec : Rec :=
  [(("name" : String), PyVal.str ("X")),
   (("latitude" : String), PyVal.str ("12.5")),
   (("longitude" : String), PyVal.str ("45.0")),
   (("population" : String), PyVal.str ("-5"))]

/-- The feature the spec's C2 scenario expects `export_chunk` to build. -/
def c2feature : Feature :=
  ⟨PyVal.str ("45.0"), PyVal.str ("12.5"), [(("name" : String), PyVal.str ("X"))]⟩

/-- A full 19-column record with a negative elevation, well-formed
coordinates, and positive population and dem. -/
def c1rec : Rec :=
  [(("geonameid" : String), PyVal.int 1),
   (("name" : String), PyVal.str ("A")),
   (("asciiname" : String), PyVal.str ("A")),
   (("alternatenames" : String), PyVal.tup [("x" : String)]),
   (("latitude" : String), PyVal.float 10),
   (("longitude" : String), PyVal.float 20),
   (("feature class" : String), PyVal.str ("P")),
   (("feature code" : String), PyVal.str ("PPL")),
   (("country code" : String), PyVal.str ("US")),
   (("cc2" : String), PyVal.tup []),
   (("admin1 code" : String), PyVal.str ("01")),
   (("admin2 code" : String), PyVal.str ("02")),
   (("admin3 code" : String), PyVal.str ("03")),
   (("admin4 code" : String), PyVal.str ("04")),
   (("population" : String), PyVal.int 5),
   (("elevation" : String), PyVal.int (-5)),
   (("dem" : String), PyVal.int 7),
   (("timezone" : String), PyVal.str ("UTC")),
   (("modification date" : String), PyVal.str ("2020-01-01"))]

/-- A full 19-column record whose latitude is NaN, so its sanitized form
lacks the `latitude` key and the record is rejected. -/
def c5rec : Rec :=
  [(("geonameid" : String), PyVal.int 2),
   (("name" : String), PyVal.str ("B")),
   (("asciiname" : String), PyVal.str ("B")),
   (("alternatenames" : String), PyVal.tup []),
   (("latitude" : String), PyVal.nan),
   (("longitude" : String), PyVal.float 20),
   (("feature class" : String), PyVal.str ("P")),
   (("feature code" : String), PyVal.str ("PPL")),
   (("country code" : String), PyVal.str ("US")),
   (("cc2" : String), PyVal.tup []),
   (("admin1 code" : String), PyVal.str ("01")),
   (("admin2 code" : String), PyVal.str ("02")),
   (("admin3 code" : String), PyVal.str ("03")),
   (("admin4 code" : String), PyVal.str ("04")),
   (("population" : String), PyVal.int 5),
   (("elevation" : String), PyVal.int 10),
   (("dem" : String), PyVal.int 7),
   (("timezone" : String), PyVal.str ("UTC")),
   (("modification date" : String), PyVal.str ("2020-01-01"))]

/-! ## Claim theorems -/

/-- Claim C8: `_make_tuple` splits comma-separated text into an ordered
tuple of strings: the input `a,b,c` yields the triple of the three
letters, and the empty string yields the empty tuple. -/
theorem c8_make_tuple_split :
    _make_tuple ("a,b,c") = [("a" : String), "b", "c"] ∧ _make_tuple ("") = [] := by
  constructor <;> decide

/-- Claim C1, counterexample: the record `c1rec` carries
`elevation = -5 ≤ 0`, yet after `export_chunk` processes it the field is
still present in the produced feature's properties — the code's
sanitization drops non-positive `population` and `dem`, not `elevation`. -/
theorem c1_counterexample :
    lookupKey c1rec ("elevation") = some (PyVal.int (-5)) ∧
    pyLeZero (PyVal.int (-5)) = true ∧
    Except.map (fun fs => fs.map (fun f => lookupKey (Feature.properties f) ("elevation")))
        (export_chunk [c1rec]).2 =
      Except.ok [some (PyVal.int (-5))] := by
  refine ⟨rfl, rfl, ?_⟩
  rfl

/-- Claim C1 as amended: for every record that sanitizes successfully, if
`population` or `dem` is still present in the sanitized record then its
value was not `≤ 0` (so a non-positive value of either field is dropped);
`elevation` is not subject to the non-positivity rule. -/
theorem c1_population_dem_dropped (d d' : Rec) (h : sanitize d = Except.ok d')
    (k : String) (hk : k = ("population" : String) ∨ k = ("dem" : String))
    (v : PyVal) (hv : lookupKey d' k = some v) :
    pyLeZero v = false := by
  have hall := sanitize_ok_hasAllCols d d' h
  have hchar := sanitize_ok_of_hasAllCols d hall
  rw [h] at hchar
  have hd' : d' = pureFilter d := Except.ok.inj hchar
  rw [hd'] at hv
  have hkmem : k ∈ _columns := by
    rcases hk with hk | hk <;> rw [hk] <;> decide
  rw [lookupKey_pureFilter d k hkmem] at hv
  by_cases hkeep : keepVal k (pyGet d k) = true
  · rw [if_pos hkeep] at hv
    have hg : pyGet d k = v := by
      unfold pyGet
      rw [hv]
      rfl
    rw [hg] at hkeep
    unfold keepVal at hkeep
    rw [Bool.and_eq_true] at hkeep
    have h2 := hkeep.2
    rcases hk with hk | hk <;> rw [hk] at h2 <;> simpa using h2
  · rw [Bool.not_eq_true] at hkeep
    rw [if_neg (by simp [hkeep])] at hv
    exact absurd hv (by simp)

/-- Witness for the amended C1: applied to the concrete record `c1rec`,
whose sanitized form keeps `population = 5`. -/
theorem c1_population_dem_dropped_witness :
    pyLeZero (PyVal.int 5) = false :=
  c1_population_dem_dropped c1rec (pureFilter c1rec) (by decide)
    ("population") (Or.inl rfl) (PyVal.int 5) (by decide)

/-- Claim C2, counterexample: on the spec's scenario chunk, `export_chunk`
does not build the expected feature — the sanitization loop pops the
absent declared column `geonameid` without a default and raises
`KeyError`. -/
theorem c2_counterexample :
    (export_chunk [c2rec]).2 = Except.error (PyErr.keyError ("geonameid")) ∧
    ¬ (export_chunk [c2rec]).2 = Except.ok [c2feature] := by
  refine ⟨rfl, ?_⟩
  decide

/-- Claim C2 as amended: for the scenario chunk whose single record holds
only `name`, `latitude`, `longitude` and `population`, `export_chunk`
raises `KeyError` on the first declared column `geonameid` (because
`d.pop` of a missing key raises), producing no feature and no log line. -/
theorem c2_keyerror :
    export_chunk [c2rec] = ([], Except.error (PyErr.keyError ("geonameid"))) := by
  decide

/-- Characterization of `export_chunk` on a batch whose records all carry
the 19 declared columns: it never raises; the features are the sanitized
records that kept both coordinates, in order, and the log holds the
sanitized forms of the rejected records, in order. -/
theorem export_chunk_char (records : List Rec)
    (h : ∀ d ∈ records, hasAllCols d = true) :
    (export_chunk records).2 =
      Except.ok (records.filterMap (fun d => mkFeature (pureFilter d))) ∧
    (export_chunk records).1 =
      records.filterMap (fun d =>
        if mkFeature (pureFilter d) = Option.none then some (pureFilter d)
        else Option.none) := by
  induction records with
  | nil => exact ⟨rfl, rfl⟩
  | cons d rest ih =>
    have hd : hasAllCols d = true := h d (List.mem_cons_self d rest)
    have hrest : ∀ d' ∈ rest, hasAllCols d' = true :=
      fun d' hd' => h d' (List.mem_cons_of_mem d hd')
    have hsan := sanitize_ok_of_hasAllCols d hd
    obtain ⟨ih1, ih2⟩ := ih hrest
    cases hmk : mkFeature (pureFilter d) with
    | none =>
      refine ⟨?_, ?_⟩
      · unfold export_chunk
        rw [hsan]
        simp only [hmk, List.filterMap_cons, ih1]
      · unfold export_chunk
        rw [hsan]
        simp only [hmk, List.filterMap_cons, ih2]
        simp
    | some f =>
      refine ⟨?_, ?_⟩
      · unfold export_chunk
        rw [hsan]
        simp only [hmk, List.filterMap_cons, ih1, Except.map]
      · unfold export_chunk
        rw [hsan]
        simp only [hmk, List.filterMap_cons, ih2]
        simp

/-- Claim C5 (amended with the proviso that every record of the batch
carries all 19 declared columns, as the chunked reader guarantees): a
record whose sanitized form lacks `longitude` or `latitude` produces no
feature and its sanitized form is printed to the log; the rest of the
batch is still processed (the outputs are exactly the filtered maps over
the whole batch) and no exception is raised. -/
theorem c5_reject_missing_coords (records : List Rec)
    (h : ∀ d ∈ records, hasAllCols d = true) :
    (export_chunk records).2 =
      Except.ok (records.filterMap (fun d => mkFeature (pureFilter d))) ∧
    (export_chunk records).1 =
      records.filterMap (fun d =>
        if mkFeature (pureFilter d) = Option.none then some (pureFilter d)
        else Option.none) ∧
    ∀ d ∈ records, mkFeature (pureFilter d) = Option.none →
      pureFilter d ∈ (export_chunk records).1 := by
  obtain ⟨h1, h2⟩ := export_chunk_char records h
  refine ⟨h1, h2, ?_⟩
  intro d hd hmk
  rw [h2]
  rw [List.mem_filterMap]
  exact ⟨d, hd, by rw [hmk]; simp⟩

/-- Witness for C5: a singleton batch whose record has NaN latitude — the
record is rejected into the log, no feature is built, no error is
raised. -/
theorem c5_reject_missing_coords_witness :
    (export_chunk [c5rec]).2 =
      Except.ok ([c5rec].filterMap (fun d => mkFeature (pureFilter d))) ∧
    (export_chunk [c5rec]).1 =
      [c5rec].filterMap (fun d =>
        if mkFeature (pureFilter d) = Option.none then some (pureFilter d)
        else Option.none) :=
  ⟨(c5_reject_missing_coords [c5rec] (by decide)).1,
   (c5_reject_missing_coords [c5rec] (by decide)).2.1⟩

/-- Claim C5, counterexample: in the batch `[c5rec, c2rec]` the first
record's sanitized form lacks `latitude` (premise of the claim holds for
it), but processing the batch raises `KeyError` on the second record, so
"no exception is raised" fails. -/
theorem c5_counterexample :
    sanitize c5rec = Except.ok (pureFilter c5rec) ∧
    containsKey (pureFilter c5rec) ("latitude") = false ∧
    mkFeature (pureFilter c5rec) = Option.none ∧
    (export_chunk [c5rec, c2rec]).2 = Except.error (PyErr.keyError ("geonameid")) := by
  refine ⟨by decide, by decide, by decide, ?_⟩
  rfl

/-! ## Progress reporter

`progress_report` writes to an output stream and reads/writes the
module-level `_tick`; both are made explicit: the stream's `isatty` is a
boolean parameter, the written lines are returned, `time.time()` is the
parameter `now`, and `_tick` is threaded as `Option ℚ` state. -/

/-- One line written to the stream: either raw literal text, or the
overwritten status line carrying the message, the clamped percentage, the
formatted speed if a unit was given, and the unit. -/
inductive Line where
  | raw (s : String)
  | status (message : String) (percent : ℚ) (speed : Option ℚ) (unit : Option String)
  deriving DecidableEq

/-- The `if unit:` guard before speed formatting: under Python truthiness
`None` and the empty string suppress the speed part of the message. -/
def speedPart (unit : Option String) (speed : ℚ) : Option ℚ :=
  match unit with
  | Option.none => Option.none
  | some u => if u = "" then Option.none else some speed

/-- `progress_report`: no-op on a non-interactive stream; a literal
`Unknown size` line when `total <= 0`; otherwise one status line with the
percentage clamped into `[0, 100.9]` and a speed computed from the time
elapsed since `_tick` (set on the first call of a session; a second call
at the very same instant raises ZeroDivisionError).  Returns the written
lines and the new `_tick`. -/
def progress_report (count total : ℚ) (message : String) (unit : Option String)
    (isatty : Bool) (now : ℚ) (tick : Option ℚ) :
    Except PyErr (List Line × Option ℚ) :=
  if isatty = false then Except.ok ([], tick)
  else if total ≤ 0 then Except.ok ([Line.raw ("%s: Unknown size\n")], tick)
  else
    match tick with
    | Option.none =>
      Except.ok ([Line.status message (max (min (100 * count / total) (1009 / 10)) 0)
        (speedPart unit 0) unit], some now)
    | some t =>
      if now = t then Except.error PyErr.zeroDiv
      else
        Except.ok ([Line.status message (max (min (100 * count / total) (1009 / 10)) 0)
          (speedPart unit (count / (now - t))) unit], some t)

/-- `done_report`: writes the terminating newline on an interactive stream
and resets `_tick`. -/
def done_report (isatty : Bool) : List Line × Option ℚ :=
  if isatty then ([Line.raw ("\n")], Option.none) else ([], Option.none)

/-- Claim C6: whenever `progress_report` is called with `total > 0` on an
interactive stream and writes a status line, the percentage it carries
lies in the closed interval `[0, 100.9]`, for every `count`, including
`count > total` and `count < 0`. -/
theorem c6_percent_clamped (count total : ℚ) (message : String)
    (unit : Option String) (now : ℚ) (tick : Option ℚ) (htotal : 0 < total)
    (lines : List Line) (tick' : Option ℚ)
    (hrun : progress_report count total message unit true now tick =
      Except.ok (lines, tick'))
    (m : String) (p : ℚ) (s : Option ℚ) (u : Option String)
    (hmem : Line.status m p s u ∈ lines) :
    0 ≤ p ∧ p ≤ 1009 / 10 := by
  have hbound : ∀ x : ℚ, 0 ≤ max (min x (1009 / 10)) 0 ∧
      max (min x (1009 / 10)) 0 ≤ 1009 / 10 := by
    intro x
    constructor
    · exact le_max_right _ _
    · exact max_le (min_le_right _ _) (by norm_num)
  unfold progress_report at hrun
  rw [if_neg (by simp)] at hrun
  rw [if_neg (not_le.mpr htotal)] at hrun
  cases tick with
  | none =>
    have hl : lines = [Line.status message
        (max (min (100 * count / total) (1009 / 10)) 0) (speedPart unit 0) unit] :=
      (Prod.mk.injEq _ _ _ _ ▸ Except.ok.inj hrun).1.symm
    rw [hl] at hmem
    rcases List.mem_singleton.mp hmem with heq
    have hp := (Line.status.injEq _ _ _ _ _ _ _ _ ▸ heq).2.1
    rw [hp]
    exact hbound _
  | some t =>
    have hred : (if now = t then (Except.error PyErr.zeroDiv :
          Except PyErr (List Line × Option ℚ))
        else Except.ok ([Line.status message
          (max (min (100 * count / total) (1009 / 10)) 0)
          (speedPart unit (count / (now - t))) unit], some t)) =
        Except.ok (lines, tick') := hrun
    by_cases hnt : now = t
    · rw [if_pos hnt] at hred
      exact absurd hred (by simp)
    · rw [if_neg hnt] at hred
      have hl : lines = [Line.status message
          (max (min (100 * count / total) (1009 / 10)) 0)
          (speedPart unit (count / (now - t))) unit] :=
        (Prod.mk.injEq _ _ _ _ ▸ Except.ok.inj hred).1.symm
      rw [hl] at hmem
      rcases List.mem_singleton.mp hmem with heq
      have hp := (Line.status.injEq _ _ _ _ _ _ _ _ ▸ heq).2.1
      rw [hp]
      exact hbound _

/-- Witness for C6: a concrete call with `count = 200 > total = 100`. -/
theorem c6_percent_clamped_witness :
    0 ≤ max (min (100 * (200 : ℚ) / 100) (1009 / 10)) 0 ∧
    max (min (100 * (200 : ℚ) / 100) (1009 / 10)) 0 ≤ 1009 / 10 :=
  c6_percent_clamped 200 100 ("m") Option.none 0 Option.none (by norm_num)
    [Line.status ("m") (max (min (100 * (200 : ℚ) / 100) (1009 / 10)) 0)
      (speedPart Option.none 0) Option.none] (some 0) rfl
    ("m") (max (min (100 * (200 : ℚ) / 100) (1009 / 10)) 0)
    (speedPart Option.none 0) Option.none (List.mem_singleton.mpr rfl)

/-- Claim C7: with `total <= 0` on an interactive stream the reporter
writes only the literal unknown-size line and returns with `_tick`
untouched — no percentage and no throughput are computed. -/
theorem c7_unknown_size (count total : ℚ) (message : String)
    (unit : Option String) (now : ℚ) (tick : Option ℚ) (h : total ≤ 0) :
    progress_report count total message unit true now tick =
      Except.ok ([Line.raw ("%s: Unknown size\n")], tick) := by
  unfold progress_report
  rw [if_neg (by simp), if_pos h]

/-- Witness for C7: the concrete call with `total = 0`. -/
theorem c7_unknown_size_witness :
    (0 : ℚ) ≤ 0 ∧
    progress_report 3 0 ("msg") Option.none true 1 Option.none =
      Except.ok ([Line.raw ("%s: Unknown size\n")], Option.none) :=
  ⟨le_refl 0, c7_unknown_size 3 0 ("msg") Option.none 1 Option.none (le_refl 0)⟩

/-- Claim C9: for `total <= 0` on an interactive stream the written line
is the literal text `%s: Unknown size` — the message argument is never
interpolated (the source string has no `%` operator applied), so two
calls differing only in the message write the same bytes. -/
theorem c9_no_interpolation (count total : ℚ) (m1 m2 : String)
    (unit : Option String) (now : ℚ) (tick : Option ℚ) (h : total ≤ 0) :
    progress_report count total m1 unit true now tick =
      progress_report count total m2 unit true now tick ∧
    progress_report count total m1 unit true now tick =
      Except.ok ([Line.raw ("%s: Unknown size\n")], tick) := by
  have key : ∀ msg : String, progress_report count total msg unit true now tick =
      Except.ok ([Line.raw ("%s: Unknown size\n")], tick) := by
    intro msg
    unfold progress_report
    rw [if_neg (by simp), if_pos h]
  exact ⟨(key m1).trans (key m2).symm, key m1⟩

/-- Witness for C9: two concrete calls with different messages. -/
theorem c9_no_interpolation_witness :
    (0 : ℚ) ≤ 0 ∧
    (progress_report 7 0 ("Downloading allCountries.zip") Option.none true 2 Option.none =
      progress_report 7 0 ("other message") Option.none true 2 Option.none ∧
    progress_report 7 0 ("Downloading allCountries.zip") Option.none true 2 Option.none =
      Except.ok ([Line.raw ("%s: Unknown size\n")], Option.none)) :=
  ⟨le_refl 0, c9_no_interpolation 7 0 ("Downloading allCountries.zip")
    ("other message") Option.none 2 Option.none (le_refl 0)⟩

/-! ## Downloader

`download_all_countries` touches two file-system paths: the temporary
file in `tempfile.gettempdir()` and the destination.  The state carries
the optional contents of each; the network transfer is an oracle
parameter that either delivers the whole archive or fails mid-stream
after leaving some partial bytes (or nothing) at the temporary path. -/

/-- Outcome of the `urllib.urlretrieve` call: full success with the
archive's contents, or a failure that may have left partial contents at
the temporary path. -/
inductive FetchOutcome where
  | success (content : Nat)
  | failure (leftover : Option Nat) (err : PyErr)
  deriving DecidableEq

/-- The two paths the downloader writes: the temp file and `dest`. -/
structure DLState where
  tmp : Option Nat
  dest : Option Nat
  deriving DecidableEq

/-- `urllib.urlretrieve(url, tmp, ...)`: on success the temp file holds
the whole archive; on failure the error propagates and the temp path
holds whatever partial bytes were written (nothing new if none were). -/
def urlretrieve (o : FetchOutcome) (s : DLState) : Except PyErr Unit × DLState :=
  match o with
  | FetchOutcome.success c => (Except.ok (), { s with tmp := some c })
  | FetchOutcome.failure leftover e =>
    (Except.error e, { s with tmp := match leftover with
      | some p => some p
      | Option.none => s.tmp })

/-- `shutil.move(tmp, dest)`: relocate the temp file onto the
destination; raises IOError when the temp file does not exist. -/
def moveTmp (s : DLState) : Except PyErr Unit × DLState :=
  match s.tmp with
  | some c => (Except.ok (), { tmp := Option.none, dest := some c })
  | Option.none => (Except.error PyErr.ioError, s)

/-- The `finally` block: `if os.path.exists(tmp): os.remove(tmp)`. -/
def finallyCleanup (s : DLState) : DLState :=
  if s.tmp.isSome then { s with tmp := Option.none } else s

/-- `download_all_countries`: retrieve the archive to the temp path, then
move it onto `dest`; the `finally` block removes the temp file if it
still exists, both when the fetch failed (before the error propagates)
and after a successful move (where it is a no-op). -/
def download_all_countries (o : FetchOutcome) (s : DLState) :
    Except PyErr Unit × DLState :=
  match urlretrieve o s with
  | (Except.error e, s1) => (Except.error e, finallyCleanup s1)
  | (Except.ok _, s1) =>
    match moveTmp s1 with
    | (r2, s2) => (r2, finallyCleanup s2)

/-- Claim C4: after any run of the downloader no temp file remains; on
success the fetched archive sits at the destination and the call returns
normally; on any failure during the fetch the error propagates and the
destination is untouched. -/
theorem c4_download_cleanup (o : FetchOutcome) (s : DLState) :
    (download_all_countries o s).2.tmp = Option.none ∧
    (∀ c, o = FetchOutcome.success c →
      (download_all_countries o s).1 = Except.ok () ∧
      (download_all_countries o s).2.dest = some c) ∧
    (∀ leftover e, o = FetchOutcome.failure leftover e →
      (download_all_countries o s).1 = Except.error e ∧
      (download_all_countries o s).2.dest = s.dest) := by
  cases o with
  | success c =>
    refine ⟨rfl, ?_, ?_⟩
    · intro c' hc
      cases hc
      exact ⟨rfl, rfl⟩
    · intro leftover e hc
      exact absurd hc (by simp)
  | failure leftover e =>
    have hcl : (download_all_countries (FetchOutcome.failure leftover e) s).2 =
        { tmp := Option.none, dest := s.dest } := by
      unfold download_all_countries urlretrieve finallyCleanup
      cases leftover with
      | none =>
        cases htmp : s.tmp <;> simp [htmp]
      | some p => simp
    refine ⟨by rw [hcl], ?_, ?_⟩
    · intro c hc
      exact absurd hc (by simp)
    · intro leftover' e' hc
      rw [FetchOutcome.failure.injEq] at hc
      refine ⟨?_, by rw [hcl]⟩
      rw [hc.2]
      rfl

/-- Witness for C4: one successful run and one mid-stream failure with a
partial temp file present, both from empty initial state. -/
theorem c4_download_cleanup_witness :
    ((download_all_countries (FetchOutcome.success 7) ⟨Option.none, Option.none⟩).1 =
        Except.ok () ∧
      (download_all_countries (FetchOutcome.success 7) ⟨Option.none, Option.none⟩).2.dest =
        some 7) ∧
    ((download_all_countries (FetchOutcome.failure (some 3) PyErr.urlError)
        ⟨Option.none, some 9⟩).2.tmp = Option.none ∧
      (download_all_countries (FetchOutcome.failure (some 3) PyErr.urlError)
        ⟨Option.none, some 9⟩).1 = Except.error PyErr.urlError ∧
      (download_all_countries (FetchOutcome.failure (some 3) PyErr.urlError)
        ⟨Option.none, some 9⟩).2.dest = some 9) :=
  ⟨((c4_download_cleanup (FetchOutcome.success 7) ⟨Option.none, Option.none⟩).2.1
      7 rfl),
   (c4_download_cleanup (FetchOutcome.failure (some 3) PyErr.urlError)
      ⟨Option.none, some 9⟩).1,
   ((c4_download_cleanup (FetchOutcome.failure (some 3) PyErr.urlError)
      ⟨Option.none, some 9⟩).2.2 (some 3) PyErr.urlError rfl)⟩

/-! ## Export sink

`export_to_girder` persists each feature through three store operations:
`createItem`, `setMetadata`, `updateItem` (the geospatial field).  The
store is abstracted as three success oracles indexed by the feature's
position in the batch; what the sink did is returned as a trace (created
item indices, metadata-written indices, geometry-written indices, and the
diagnostics written to stderr, in order). -/

/-- Success oracles of the destination store, per feature index. -/
structure Store where
  createOk : Nat → Bool
  metaOk : Nat → Bool
  geoOk : Nat → Bool

/-- A diagnostic written to the error stream by the sink. -/
inductive Diag where
  | insertFailed
  | metadataFailed
  | geospatialFailed
  deriving DecidableEq

/-- Observable trace of one run of the sink. -/
structure SinkTrace where
  created : List Nat
  metaSet : List Nat
  geoSet : List Nat
  diags : List Diag
  deriving DecidableEq

/-- `d['properties'][k]`: dict subscription, raising `KeyError` when the
key is absent. -/
def getProp (d : Rec) (k : String) : Except PyErr PyVal :=
  match lookupKey d k with
  | some v => Except.ok v
  | Option.none => Except.error (PyErr.keyError k)

/-- `', '.join(x)`: joins a tuple of strings; a plain string is joined
character by character; any non-iterable raises `TypeError`. -/
def joinNames : PyVal → Except PyErr String
  | PyVal.tup l => Except.ok (String.intercalate (", ") l)
  | PyVal.str s =>
    Except.ok (String.intercalate (", ") (s.data.map (fun c => String.mk [c])))
  | _ => Except.error PyErr.typeError

/-- The loop body of `export_to_girder` from feature index `i` on.  Per
feature: read `name` and `alternatenames` out of the properties (outside
any try block, so `KeyError`/`TypeError` propagates); then `createItem`
guarded by try — on failure write a diagnostic and return, abandoning the
rest of the batch; then `setMetadata` and the geospatial `updateItem`,
each guarded by a try that logs and continues. -/
def exportGo (env : Store) : Nat → List Feature → Except PyErr SinkTrace
  | _, [] => Except.ok ⟨[], [], [], []⟩
  | i, f :: rest =>
    match getProp f.properties ("name") with
    | Except.error e => Except.error e
    | Except.ok _ =>
      match getProp f.properties ("alternatenames") with
      | Except.error e => Except.error e
      | Except.ok alts =>
        match joinNames alts with
        | Except.error e => Except.error e
        | Except.ok _ =>
          if env.createOk i = false then
            Except.ok ⟨[], [], [], [Diag.insertFailed]⟩
          else
            match exportGo env (i + 1) rest with
            | Except.error e => Except.error e
            | Except.ok tr =>
              Except.ok ⟨i :: tr.created,
                (if env.metaOk i then [i] else []) ++ tr.metaSet,
                (if env.geoOk i then [i] else []) ++ tr.geoSet,
                (if env.metaOk i then [] else [Diag.metadataFailed]) ++
                  ((if env.geoOk i then [] else [Diag.geospatialFailed]) ++ tr.diags)⟩

/-- `export_to_girder` over a batch of features. -/
def export_to_girder (env : Store) (feats : List Feature) : Except PyErr SinkTrace :=
  exportGo env 0 feats

/-- A feature whose properties carry a `name` and a joinable
`alternatenames`, so the unguarded extraction code cannot raise. -/
def wellFormed (f : Feature) : Bool :=
  (lookupKey f.properties ("name")).isSome &&
  (match lookupKey f.properties ("alternatenames") with
   | some (PyVal.tup _) => true
   | some (PyVal.str _) => true
   | _ => false)

theorem wellFormed_elim (f : Feature) (hwf : wellFormed f = true) :
    (∃ nv, getProp f.properties ("name") = Except.ok nv) ∧
    (∃ av ds, getProp f.properties ("alternatenames") = Except.ok av ∧
      joinNames av = Except.ok ds) := by
  unfold wellFormed at hwf
  rw [Bool.and_eq_true] at hwf
  obtain ⟨h1, h2⟩ := hwf
  constructor
  · cases hn : lookupKey f.properties ("name") with
    | none => rw [hn] at h1; exact absurd h1 (by simp)
    | some v => exact ⟨v, by unfold getProp; rw [hn]⟩
  · cases ha : lookupKey f.properties ("alternatenames") with
    | none => rw [ha] at h2; exact absurd h2 (by simp)
    | some v =>
      rw [ha] at h2
      cases v with
      | tup l =>
        exact ⟨PyVal.tup l, String.intercalate (", ") l,
          by unfold getProp; rw [ha], rfl⟩
      | str s =>
        exact ⟨PyVal.str s, String.intercalate (", ") (s.data.map (fun c => String.mk [c])),
          by unfold getProp; rw [ha], rfl⟩
      | none => exact absurd h2 (by simp)
      | int n => exact absurd h2 (by simp)
      | float q => exact absurd h2 (by simp)
      | nan => exact absurd h2 (by simp)

/-- On a well-formed feature the loop body reaches the `createItem`
attempt. -/
theorem exportGo_cons (env : Store) (i : Nat) (f : Feature) (rest : List Feature)
    (hwf : wellFormed f = true) :
    exportGo env i (f :: rest) =
      (if env.createOk i = false then
        Except.ok ⟨[], [], [], [Diag.insertFailed]⟩
      else
        match exportGo env (i + 1) rest with
        | Except.error e => Except.error e
        | Except.ok tr =>
          Except.ok ⟨i :: tr.created,
            (if env.metaOk i then [i] else []) ++ tr.metaSet,
            (if env.geoOk i then [i] else []) ++ tr.geoSet,
            (if env.metaOk i then [] else [Diag.metadataFailed]) ++
              ((if env.geoOk i then [] else [Diag.geospatialFailed]) ++ tr.diags)⟩) := by
  obtain ⟨⟨nv, hn⟩, ⟨av, ds, ha, hj⟩⟩ := wellFormed_elim f hwf
  conv_lhs => rw [exportGo]
  simp only [hn, ha, hj]

/-- When every `createItem` in the batch succeeds, the sink creates one
item per feature (indices `m, m+1, ...` in order) and a metadata or
geometry write failure only adds a logged diagnostic. -/
theorem exportGo_all_ok (env : Store) (feats : List Feature) :
    ∀ m : Nat, (∀ f ∈ feats, wellFormed f = true) →
    (∀ j, j < feats.length → env.createOk (m + j) = true) →
    ∃ tr, exportGo env m feats = Except.ok tr ∧
      tr.created = List.range' m feats.length ∧
      (∀ j, j < feats.length → env.metaOk (m + j) = false →
        Diag.metadataFailed ∈ tr.diags) ∧
      (∀ j, j < feats.length → env.geoOk (m + j) = false →
        Diag.geospatialFailed ∈ tr.diags) := by
  induction feats with
  | nil =>
    intro m _ _
    exact ⟨⟨[], [], [], []⟩, rfl, by simp, by simp, by simp⟩
  | cons f rest ih =>
    intro m hwf hcreate
    have hwff : wellFormed f = true := hwf f (List.mem_cons_self f rest)
    have hcm : env.createOk m = true := by simpa using hcreate 0 (by simp)
    have hrest : ∀ g ∈ rest, wellFormed g = true :=
      fun g hg => hwf g (List.mem_cons_of_mem f hg)
    have hcrest : ∀ j, j < rest.length → env.createOk (m + 1 + j) = true := by
      intro j hj
      have := hcreate (j + 1) (by simpa using Nat.succ_lt_succ hj)
      rwa [show m + (j + 1) = m + 1 + j by omega] at this
    obtain ⟨tr, htr, hcr, hmeta, hgeo⟩ := ih (m + 1) hrest hcrest
    refine ⟨⟨m :: tr.created,
      (if env.metaOk m then [m] else []) ++ tr.metaSet,
      (if env.geoOk m then [m] else []) ++ tr.geoSet,
      (if env.metaOk m then [] else [Diag.metadataFailed]) ++
        ((if env.geoOk m then [] else [Diag.geospatialFailed]) ++ tr.diags)⟩,
      ?_, ?_, ?_, ?_⟩
    · rw [exportGo_cons env m f rest hwff, hcm, if_neg (by simp), htr]
    · simp only [List.length_cons, List.range'_succ]
      rw [hcr]
    · intro j hj hm
      cases j with
      | zero =>
        rw [Nat.add_zero] at hm
        simp [hm]
      | succ j' =>
        have hj' : j' < rest.length := by simpa using Nat.lt_of_succ_lt_succ hj
        have := hmeta j' hj' (by rwa [show m + 1 + j' = m + (j' + 1) by omega])
        simp [this]
    · intro j hj hg
      cases j with
      | zero =>
        rw [Nat.add_zero] at hg
        simp [hg]
      | succ j' =>
        have hj' : j' < rest.length := by simpa using Nat.lt_of_succ_lt_succ hj
        have := hgeo j' hj' (by rwa [show m + 1 + j' = m + (j' + 1) by omega])
        simp [this]

/-- When the first `createItem` failure happens at offset `i`, the sink
stops there: exactly the features before `i` got items, the insertion
diagnostic is logged, and the call still returns normally. -/
theorem exportGo_create_fail (env : Store) (feats : List Feature) :
    ∀ m i : Nat, (∀ f ∈ feats, wellFormed f = true) →
    i < feats.length →
    env.createOk (m + i) = false →
    (∀ j, j < i → env.createOk (m + j) = true) →
    ∃ tr, exportGo env m feats = Except.ok tr ∧
      tr.created = List.range' m i ∧ Diag.insertFailed ∈ tr.diags := by
  induction feats with
  | nil =>
    intro m i _ hi _ _
    exact absurd hi (by simp)
  | cons f rest ih =>
    intro m i hwf hi hfail hok
    have hwff : wellFormed f = true := hwf f (List.mem_cons_self f rest)
    have hrest : ∀ g ∈ rest, wellFormed g = true :=
      fun g hg => hwf g (List.mem_cons_of_mem f hg)
    cases i with
    | zero =>
      rw [Nat.add_zero] at hfail
      refine ⟨⟨[], [], [], [Diag.insertFailed]⟩, ?_, by simp, by simp⟩
      rw [exportGo_cons env m f rest hwff, hfail, if_pos rfl]
    | succ i' =>
      have hcm : env.createOk m = true := by simpa using hok 0 (Nat.succ_pos i')
      have hi' : i' < rest.length := by simpa using Nat.lt_of_succ_lt_succ hi
      have hfail' : env.createOk (m + 1 + i') = false := by
        rwa [show m + 1 + i' = m + (i' + 1) by omega]
      have hok' : ∀ j, j < i' → env.createOk (m + 1 + j) = true := by
        intro j hj
        have := hok (j + 1) (Nat.succ_lt_succ hj)
        rwa [show m + (j + 1) = m + 1 + j by omega] at this
      obtain ⟨tr, htr, hcr, hdiag⟩ := ih (m + 1) i' hrest hi' hfail' hok'
      refine ⟨⟨m :: tr.created,
        (if env.metaOk m then [m] else []) ++ tr.metaSet,
        (if env.geoOk m then [m] else []) ++ tr.geoSet,
        (if env.metaOk m then [] else [Diag.metadataFailed]) ++
          ((if env.geoOk m then [] else [Diag.geospatialFailed]) ++ tr.diags)⟩,
        ?_, ?_, ?_⟩
      · rw [exportGo_cons env m f rest hwff, hcm, if_neg (by simp), htr]
      · simp only [List.range'_succ]
        rw [hcr]
      · simp [hdiag]

/-- An unguarded `KeyError` on `name` or `alternatenames` at any position
propagates out of the sink, provided the features before it were created
without a `createItem` failure (which would have returned early). -/
theorem exportGo_error (env : Store) (pre : List Feature) :
    ∀ (m : Nat) (f : Feature) (post : List Feature),
    (∀ g ∈ pre, wellFormed g = true) →
    (∀ j, j < pre.length → env.createOk (m + j) = true) →
    (lookupKey f.properties ("name") = Option.none ∨
     lookupKey f.properties ("alternatenames") = Option.none) →
    ∃ e, exportGo env m (pre ++ f :: post) = Except.error e := by
  induction pre with
  | nil =>
    intro m f post _ _ hf
    rcases hf with hf | hf
    · refine ⟨PyErr.keyError ("name"), ?_⟩
      show exportGo env m (f :: post) = _
      conv_lhs => rw [exportGo]
      unfold getProp
      rw [hf]
    · cases hn : lookupKey f.properties ("name") with
      | none =>
        refine ⟨PyErr.keyError ("name"), ?_⟩
        show exportGo env m (f :: post) = _
        conv_lhs => rw [exportGo]
        unfold getProp
        rw [hn]
      | some v =>
        refine ⟨PyErr.keyError ("alternatenames"), ?_⟩
        show exportGo env m (f :: post) = _
        conv_lhs => rw [exportGo]
        unfold getProp
        rw [hn, hf]
  | cons g pre' ih =>
    intro m f post hpre hcreate hf
    have hwfg : wellFormed g = true := hpre g (List.mem_cons_self g pre')
    have hcm : env.createOk m = true := by simpa using hcreate 0 (by simp)
    have hcreate' : ∀ j, j < pre'.length → env.createOk (m + 1 + j) = true := by
      intro j hj
      have := hcreate (j + 1) (by simpa using Nat.succ_lt_succ hj)
      rwa [show m + (j + 1) = m + 1 + j by omega] at this
    have hpre' : ∀ g' ∈ pre', wellFormed g' = true :=
      fun g' hg' => hpre g' (List.mem_cons_of_mem g hg')
    obtain ⟨e, he⟩ := ih (m + 1) f post hpre' hcreate' hf
    refine ⟨e, ?_⟩
    show exportGo env m (g :: (pre' ++ f :: post)) = _
    rw [exportGo_cons env m g (pre' ++ f :: post) hwfg, hcm, if_neg (by simp), he]

/-- Claim C3: per-batch failure policy of the export sink.  If
`createItem` first fails at offset `i`, only the features before `i` got
items, the insertion diagnostic is written, and the sink returns without
raising (the rest of the batch is abandoned).  If every `createItem`
succeeds, all features get items even when the metadata or geometry write
at offset `i` fails — that failure is only logged. -/
theorem c3_sink_failure_policy (env : Store) (feats : List Feature)
    (hwf : ∀ f ∈ feats, wellFormed f = true) (i : Nat) :
    (i < feats.length → env.createOk i = false →
      (∀ j, j < i → env.createOk j = true) →
      ∃ tr, export_to_girder env feats = Except.ok tr ∧
        tr.created = List.range' 0 i ∧ Diag.insertFailed ∈ tr.diags) ∧
    ((∀ j, j < feats.length → env.createOk j = true) →
      ∃ tr, export_to_girder env feats = Except.ok tr ∧
        tr.created = List.range' 0 feats.length ∧
        (i < feats.length → env.metaOk i = false →
          Diag.metadataFailed ∈ tr.diags) ∧
        (i < feats.length → env.geoOk i = false →
          Diag.geospatialFailed ∈ tr.diags)) := by
  constructor
  · intro hi hfail hok
    exact exportGo_create_fail env feats 0 i hwf hi (by simpa using hfail)
      (fun j hj => by simpa using hok j hj)
  · intro hall
    obtain ⟨tr, htr, hcr, hmeta, hgeo⟩ := exportGo_all_ok env feats 0 hwf
      (fun j hj => by simpa using hall j hj)
    exact ⟨tr, htr, hcr,
      fun hi hm => hmeta i hi (by simpa using hm),
      fun hi hg => hgeo i hi (by simpa using hg)⟩

/-- A well-formed feature used by the sink witnesses. -/
def fW : Feature :=
  ⟨PyVal.float 20, PyVal.float 10,
   [(("name" : String), PyVal.str ("A")),
    (("alternatenames" : String), PyVal.tup [])]⟩

/-- Store whose `createItem` fails exactly at index 1. -/
def envA : Store := ⟨fun n => !(n == 1), fun _ => true, fun _ => true⟩

/-- Store whose `createItem` always succeeds but `setMetadata` always
fails. -/
def envB : Store := ⟨fun _ => true, fun _ => false, fun _ => true⟩

/-- Store where all three operations always succeed. -/
def envAllOk : Store := ⟨fun _ => true, fun _ => true, fun _ => true⟩

/-- Witness for C3: in a three-feature batch, a `createItem` failure at
index 1 leaves only item 0 created with the insertion diagnostic logged;
with creation always succeeding and metadata always failing, all three
items are created and the metadata diagnostic is logged. -/
theorem c3_sink_failure_policy_witness :
    Except.map (fun tr => (tr.created, tr.diags.contains Diag.insertFailed))
      (export_to_girder envA [fW, fW, fW]) = Except.ok (List.range' 0 1, true) ∧
    Except.map (fun tr => (tr.created, tr.diags.contains Diag.metadataFailed))
      (export_to_girder envB [fW, fW, fW]) = Except.ok (List.range' 0 3, true) := by
  constructor
  · obtain ⟨tr, htr, hcr, hdiag⟩ :=
      (c3_sink_failure_policy envA [fW, fW, fW] (by decide) 1).1 (by decide)
        (by decide) (by decide)
    rw [htr]
    simp [Except.map, hcr, hdiag]
  · obtain ⟨tr, htr, hcr, hmeta, _⟩ :=
      (c3_sink_failure_policy envB [fW, fW, fW] (by decide) 0).2 (by decide)
    have hm := hmeta (by decide) (by decide)
    rw [htr]
    simp [Except.map, hcr, hm]

/-- A feature whose properties are empty, so `d['properties']['name']`
raises `KeyError`. -/
def fNoName : Feature := ⟨PyVal.float 0, PyVal.float 0, []⟩

/-- Claim C10: a feature whose properties lack `name` or `alternatenames`
makes `export_to_girder` raise — the extraction happens before the
exception-guarded `createItem`, so the error propagates to the caller
instead of being logged-and-returned (provided no earlier `createItem`
failure returned first, and the earlier features are well-formed). -/
theorem c10_missing_props_raise (env : Store) (pre : List Feature) (f : Feature)
    (post : List Feature)
    (hpre : ∀ g ∈ pre, wellFormed g = true)
    (hcreate : ∀ j, j < pre.length → env.createOk j = true)
    (hf : lookupKey f.properties ("name") = Option.none ∨
          lookupKey f.properties ("alternatenames") = Option.none) :
    ∃ e, export_to_girder env (pre ++ f :: post) = Except.error e :=
  exportGo_error env pre 0 f post hpre (fun j hj => by simpa using hcreate j hj) hf

/-- Witness for C10: a batch whose middle feature has empty properties
makes the sink raise rather than return. -/
theorem c10_missing_props_raise_witness :
    Except.isOk (export_to_girder envAllOk ([fW] ++ fNoName :: [fW])) = false := by
  obtain ⟨e, he⟩ := c10_missing_props_raise envAllOk [fW] fNoName [fW]
    (by decide) (by decide) (Or.inl rfl)
  rw [he]
  rfl

end Minerva
